import Mathlib

/-!
# Blueplane telemetry core — shallow embedding and verification

This file embeds the core of the Blueplane telemetry pipeline
(`src/blueplane/…`) in Lean 4 and settles the specification claims about
it.  The embedding follows the Python source:

* `SQLiteTraceStorage` (`storage/sqlite_traces.py`): the trace store is a
  list of rows with an auto-increment `sequence`; `batch_insert`,
  `get_by_sequence`, `_get_sequences_by_event_ids` and
  `calculate_session_metrics` are translated function by function.
* `SQLiteBatchWriter.write_batch` (`fast_path/writer.py`).
* `FastPathConsumer` (`fast_path/consumer.py`): `calculate_priority`, the
  parse loop of `run`, and `_flush_batch`.
* `ConversationStorage` (`storage/sqlite_conversations.py`):
  `create_conversation`, `get_or_create_conversation`, `add_turn`,
  `track_code_change`.
* `ConversationWorker.process` / `MetricsWorker.process`
  (`slow_path/…_worker.py`) and the routing / backpressure logic of
  `WorkerPoolManager` (`slow_path/worker_pool.py`).

Modelling conventions:

* Event dictionaries are embedded as a structure `Event` holding the
  fields the core reads (top-level fields typed, the free-form
  `metadata`/`payload` maps as association lists of JSON-ish `Prim`
  values).  Python's `dict.get` with its `None` default and Python's
  truthiness-based `or` are modelled explicitly (`Dict.pyGet`,
  `Prim.pyOr`, `Prim.truthy`).
* `json.dumps` followed by `zlib.compress` (a lossless serialisation of
  the event into a byte string) is modelled by an executable
  length-prefixed encoder `encodeEvent : Event → Bytes` together with a
  decoder `decodeEvent`; the decoder is proved to be a left inverse of
  the encoder, which is the property the source relies on.
* `uuid.uuid4()` produces ids that never collide in practice; functions
  that generate ids take them explicitly (or draw them from a counter in
  the worker wrappers), and reachability relations carry a freshness
  side condition for conversation ids.
* `datetime.utcnow()` is passed in as an explicit `now : String`
  argument.  SQLite `REAL` division is modelled exactly over `ℚ`.
* Exceptions from the storage layer are modelled by `Option` results or
  by explicit success flags where a claim is about the error path.
-/

namespace Blueplane

/-- JSON-ish primitive values stored in the free-form `metadata` and
`payload` maps of an event (`null` doubles as Python's `None`). -/
inductive Prim where
  | str (s : String)
  | int (n : Int)
  | boolean (b : Bool)
  | strlist (l : List String)
  | null
deriving DecidableEq, Repr

/-- A Python dict of JSON-ish values, as an association list. -/
abbrev Dict := List (String × Prim)

/-- Python truthiness of a value (`bool(v)`). -/
def Prim.truthy : Prim → Bool
  | .str s => s != ""
  | .int n => n != 0
  | .boolean b => b
  | .strlist l => !l.isEmpty
  | .null => false

/-- Python `d.get(k)`: the stored value, or `None` when the key is absent. -/
def Dict.pyGet (d : Dict) (k : String) : Prim :=
  match d.find? (fun kv => kv.1 == k) with
  | some kv => kv.2
  | none => Prim.null

/-- Python `d.get(k, dflt)`. -/
def Dict.pyGetD (d : Dict) (k : String) (dflt : Prim) : Prim :=
  match d.find? (fun kv => kv.1 == k) with
  | some kv => kv.2
  | none => dflt

/-- Python `a or b` on values (truthiness-based choice). -/
def Prim.pyOr (a b : Prim) : Prim := if a.truthy then a else b

def Prim.asOptInt : Prim → Option Int
  | .int n => some n
  | _ => none

def Prim.asOptStr : Prim → Option String
  | .str s => some s
  | _ => none

def Prim.asOptBool : Prim → Option Bool
  | .boolean b => some b
  | _ => none

def Prim.asStrD (p : Prim) (d : String) : String := p.asOptStr.getD d

def Prim.asIntD (p : Prim) (d : Int) : Int := p.asOptInt.getD d

def Prim.asStrList : Prim → List String
  | .strlist l => l
  | _ => []

def Prim.ofOptInt : Option Int → Prim
  | none => .null
  | some n => .int n

def Prim.ofOptStr : Option String → Prim
  | none => .null
  | some s => .str s

/-- An input event dictionary, restricted to the fields the core reads.
`ingestedAt` models the `_ingested_at` key stamped by the consumer and
`seqField` the `_sequence` key attached by the writer / reader. -/
structure Event where
  event_id : Option String := none
  session_id : Option String := none
  event_type : Option String := none
  hook_type : Option String := none
  platform : Option String := none
  timestamp : Option String := none
  external_session_id : Option String := none
  metadata : Dict := []
  payload : Dict := []
  duration_ms : Option Int := none
  tokens_used : Option Int := none
  lines_added : Option Int := none
  lines_removed : Option Int := none
  tool_name : Option String := none
  accepted : Option Bool := none
  ingestedAt : Option String := none
  seqField : Option Nat := none
deriving DecidableEq, Repr

/-! ## Serialisation codec

`batch_insert` stores `zlib.compress(json.dumps(event).encode("utf-8"))`
and `get_by_sequence` recovers the event with
`json.loads(zlib.decompress(blob))`.  The composite is a lossless
serialisation of the event into bytes; we model it with an executable
length-prefixed encoding and prove the decoder inverts the encoder. -/

abbrev Bytes := List Nat

def encString (s : String) : Bytes := s.data.length :: s.data.map Char.toNat

def encNat (n : Nat) : Bytes := [n]

def encInt : Int → Bytes
  | .ofNat n => [0, n]
  | .negSucc n => [1, n]

def encBool (b : Bool) : Bytes := [if b then 1 else 0]

def encOpt (f : α → Bytes) : Option α → Bytes
  | none => [0]
  | some a => 1 :: f a

def encListStr (l : List String) : Bytes :=
  l.length :: l.foldr (fun s acc => encString s ++ acc) []

def encPrim : Prim → Bytes
  | .str s => 0 :: encString s
  | .int n => 1 :: encInt n
  | .boolean b => 2 :: encBool b
  | .strlist l => 3 :: encListStr l
  | .null => [4]

def encDict (d : Dict) : Bytes :=
  d.length :: d.foldr (fun kv acc => encString kv.1 ++ (encPrim kv.2 ++ acc)) []

def encodeEvent (e : Event) : Bytes :=
  encOpt encString e.event_id ++ encOpt encString e.session_id ++
  encOpt encString e.event_type ++ encOpt encString e.hook_type ++
  encOpt encString e.platform ++ encOpt encString e.timestamp ++
  encOpt encString e.external_session_id ++
  encDict e.metadata ++ encDict e.payload ++
  encOpt encInt e.duration_ms ++ encOpt encInt e.tokens_used ++
  encOpt encInt e.lines_added ++ encOpt encInt e.lines_removed ++
  encOpt encString e.tool_name ++
  encOpt encBool e.accepted ++ encOpt encString e.ingestedAt ++
  encOpt encNat e.seqField

def decChars : Nat → Bytes → Option (List Char × Bytes)
  | 0, bs => some ([], bs)
  | _ + 1, [] => none
  | n + 1, b :: bs =>
    match decChars n bs with
    | some (cs, rest) => some (Char.ofNat b :: cs, rest)
    | none => none

def decString : Bytes → Option (String × Bytes)
  | [] => none
  | n :: bs =>
    match decChars n bs with
    | some (cs, rest) => some (String.mk cs, rest)
    | none => none

def decNat : Bytes → Option (Nat × Bytes)
  | [] => none
  | n :: bs => some (n, bs)

def decInt : Bytes → Option (Int × Bytes)
  | 0 :: n :: bs => some (Int.ofNat n, bs)
  | 1 :: n :: bs => some (Int.negSucc n, bs)
  | _ => none

def decBool : Bytes → Option (Bool × Bytes)
  | 0 :: bs => some (false, bs)
  | 1 :: bs => some (true, bs)
  | _ => none

def decOpt (f : Bytes → Option (α × Bytes)) : Bytes → Option (Option α × Bytes)
  | 0 :: bs => some (none, bs)
  | 1 :: bs =>
    match f bs with
    | some (a, rest) => some (some a, rest)
    | none => none
  | _ => none

def decStrings : Nat → Bytes → Option (List String × Bytes)
  | 0, bs => some ([], bs)
  | n + 1, bs =>
    match decString bs with
    | some (s, bs1) =>
      match decStrings n bs1 with
      | some (l, rest) => some (s :: l, rest)
      | none => none
    | none => none

def decListStr : Bytes → Option (List String × Bytes)
  | [] => none
  | n :: bs => decStrings n bs

def decPrim : Bytes → Option (Prim × Bytes)
  | 0 :: bs => (decString bs).map (fun x => (Prim.str x.1, x.2))
  | 1 :: bs => (decInt bs).map (fun x => (Prim.int x.1, x.2))
  | 2 :: bs => (decBool bs).map (fun x => (Prim.boolean x.1, x.2))
  | 3 :: bs => (decListStr bs).map (fun x => (Prim.strlist x.1, x.2))
  | 4 :: bs => some (Prim.null, bs)
  | _ => none

def decPairs : Nat → Bytes → Option (Dict × Bytes)
  | 0, bs => some ([], bs)
  | n + 1, bs =>
    match decString bs with
    | some (k, bs1) =>
      match decPrim bs1 with
      | some (v, bs2) =>
        match decPairs n bs2 with
        | some (d, rest) => some ((k, v) :: d, rest)
        | none => none
      | none => none
    | none => none

def decDict : Bytes → Option (Dict × Bytes)
  | [] => none
  | n :: bs => decPairs n bs

/-- Decode the seven leading optional string fields of an event. -/
def decEventStrs (bs : Bytes) :
    Option ((Option String × Option String × Option String × Option String ×
             Option String × Option String × Option String) × Bytes) :=
  match decOpt decString bs with
  | none => none
  | some (event_id, bs) =>
    match decOpt decString bs with
    | none => none
    | some (session_id, bs) =>
      match decOpt decString bs with
      | none => none
      | some (event_type, bs) =>
        match decOpt decString bs with
        | none => none
        | some (hook_type, bs) =>
          match decOpt decString bs with
          | none => none
          | some (platform, bs) =>
            match decOpt decString bs with
            | none => none
            | some (timestamp, bs) =>
              match decOpt decString bs with
              | none => none
              | some (external_session_id, bs) =>
                some ((event_id, session_id, event_type, hook_type, platform,
                       timestamp, external_session_id), bs)

/-- Decode the four optional numeric fields of an event. -/
def decEventNums (bs : Bytes) :
    Option ((Option Int × Option Int × Option Int × Option Int) × Bytes) :=
  match decOpt decInt bs with
  | none => none
  | some (duration_ms, bs) =>
    match decOpt decInt bs with
    | none => none
    | some (tokens_used, bs) =>
      match decOpt decInt bs with
      | none => none
      | some (lines_added, bs) =>
        match decOpt decInt bs with
        | none => none
        | some (lines_removed, bs) =>
          some ((duration_ms, tokens_used, lines_added, lines_removed), bs)

def decEvent (bs : Bytes) : Option (Event × Bytes) :=
  match decEventStrs bs with
  | none => none
  | some ((event_id, session_id, event_type, hook_type, platform, timestamp,
           external_session_id), bs) =>
    match decDict bs with
    | none => none
    | some (metadata, bs) =>
      match decDict bs with
      | none => none
      | some (payload, bs) =>
        match decEventNums bs with
        | none => none
        | some ((duration_ms, tokens_used, lines_added, lines_removed), bs) =>
          match decOpt decString bs with
          | none => none
          | some (tool_name, bs) =>
            match decOpt decBool bs with
            | none => none
            | some (accepted, bs) =>
              match decOpt decString bs with
              | none => none
              | some (ingestedAt, bs) =>
                match decOpt decNat bs with
                | none => none
                | some (seqField, bs) =>
                  some (⟨event_id, session_id, event_type, hook_type, platform,
                         timestamp, external_session_id, metadata, payload,
                         duration_ms, tokens_used, lines_added, lines_removed,
                         tool_name, accepted, ingestedAt, seqField⟩, bs)

/-- Model of `json.loads(zlib.decompress(blob))`. -/
def decodeEvent (bs : Bytes) : Option Event :=
  match decEvent bs with
  | some (e, _) => some e
  | none => none

/-! ## Trace store (`storage/sqlite_traces.py`, table `raw_traces`)

A row of `raw_traces`.  `sequence` is the `INTEGER PRIMARY KEY
AUTOINCREMENT` column; nullable indexed columns hold the raw extracted
value (`Prim.null` for SQL `NULL`). -/

structure TraceRow where
  sequence : Nat
  ingested_at : String
  event_id : String
  session_id : String
  event_type : String
  platform : String
  timestamp : String
  workspace_hash : Prim
  model : Prim
  tool_name : Prim
  duration_ms : Prim
  tokens_used : Prim
  lines_added : Prim
  lines_removed : Prim
  event_data : Bytes
deriving DecidableEq, Repr

/-- The trace store: `rows` in insertion order (which coincides with
ascending `sequence` for stores built by `batchInsert`), and the next
value of the AUTOINCREMENT counter. -/
structure TraceStore where
  nextSeq : Nat := 1
  rows : List TraceRow := []
deriving DecidableEq, Repr

def emptyTraceStore : TraceStore := { nextSeq := 1, rows := [] }

/-- Well-formedness maintained by the AUTOINCREMENT counter: every stored
row has a sequence below the counter. -/
def TraceStore.WF (st : TraceStore) : Prop :=
  ∀ r ∈ st.rows, r.sequence < st.nextSeq

instance (st : TraceStore) : Decidable st.WF := by
  unfold TraceStore.WF; infer_instance

/-- Field extraction of `SQLiteTraceStorage.batch_insert` for one event.
`now` stands for `datetime.utcnow().isoformat()` (the Python-side default
timestamp) and for the `ingested_at DEFAULT CURRENT_TIMESTAMP` column. -/
def rowOfEvent (seq : Nat) (now : String) (e : Event) : TraceRow :=
  { sequence := seq
    ingested_at := now
    event_id := e.event_id.getD ""
    session_id := e.session_id.getD ""
    event_type := e.event_type.getD ""
    platform := e.platform.getD ""
    timestamp := e.timestamp.getD now
    workspace_hash := e.metadata.pyGet "workspace_hash"
    model := e.metadata.pyGet "model"
    tool_name := (e.payload.pyGet "tool").pyOr (e.payload.pyGet "tool_name")
    duration_ms := (e.payload.pyGet "duration_ms").pyOr (Prim.ofOptInt e.duration_ms)
    tokens_used := (e.payload.pyGet "tokens_used").pyOr (Prim.ofOptInt e.tokens_used)
    lines_added := (e.payload.pyGet "lines_added").pyOr (Prim.ofOptInt e.lines_added)
    lines_removed := (e.payload.pyGet "lines_removed").pyOr (Prim.ofOptInt e.lines_removed)
    event_data := encodeEvent e }

/-- Rows created by one `executemany`, with consecutive AUTOINCREMENT
sequences starting at `seq`. -/
def insertRows (seq : Nat) (now : String) : List Event → List TraceRow
  | [] => []
  | e :: es => rowOfEvent seq now e :: insertRows (seq + 1) now es

/-- `SQLiteTraceStorage.batch_insert`: compress each event, build the row
tuples, and insert them in one transaction. -/
def batchInsert (st : TraceStore) (events : List Event) (now : String) : TraceStore :=
  { nextSeq := st.nextSeq + events.length
    rows := st.rows ++ insertRows st.nextSeq now events }

/-- `SQLiteTraceStorage.get_by_sequence`: look the row up by sequence,
decompress and parse `event_data`, then overwrite the `_sequence` and
`_ingested_at` keys from the row's indexed columns. -/
def getBySequence (st : TraceStore) (s : Nat) : Option Event :=
  match st.rows.find? (fun r => r.sequence == s) with
  | none => none
  | some r =>
    match decodeEvent r.event_data with
    | none => none
    | some e => some { e with seqField := some r.sequence, ingestedAt := some r.ingested_at }

/-- Last-wins insertion into the `id_to_seq` Python dict. -/
def assocSet (m : List (String × Nat)) (k : String) (v : Nat) : List (String × Nat) :=
  if m.any (fun kv => kv.1 == k) then
    m.map (fun kv => if kv.1 == k then (k, v) else kv)
  else m ++ [(k, v)]

def assocGet (m : List (String × Nat)) (k : String) : Option Nat :=
  (m.find? (fun kv => kv.1 == k)).map (fun kv => kv.2)

/-- `SQLiteTraceStorage._get_sequences_by_event_ids`: select the matching
rows ordered by ascending sequence (our `rows` list is already in that
order for stores built by `batchInsert`), build the `id_to_seq` dict
(later rows overwrite earlier ones), and return `id_to_seq.get(eid, 0)`
for each requested id. -/
def getSequencesByEventIds (st : TraceStore) (ids : List String) : List Nat :=
  if ids.isEmpty then []
  else
    let matching := st.rows.filter (fun r => ids.contains r.event_id)
    let idToSeq := matching.foldl (fun m r => assocSet m r.event_id r.sequence) []
    ids.map (fun id => (assocGet idToSeq id).getD 0)

/-- The `uuid.uuid4()` fill-in of `SQLiteBatchWriter.write_batch`: events
without an `event_id` get one from the supply `uuid` (indexed by
position). -/
def fillEventIds (uuid : Nat → String) : Nat → List Event → List Event
  | _, [] => []
  | i, e :: es =>
    (match e.event_id with
     | some _ => e
     | none => { e with event_id := some (uuid i) }) :: fillEventIds uuid (i + 1) es

structure WriteResult where
  store : TraceStore
  events : List Event
  sequences : List Nat
deriving DecidableEq, Repr

/-- `SQLiteBatchWriter.write_batch`: ensure every event has an
`event_id`, `batch_insert` the batch, query the sequences back by
`event_id`, and attach them to the events as `_sequence`. -/
def writeBatch (st : TraceStore) (events0 : List Event) (uuid : Nat → String)
    (now : String) : WriteResult :=
  let events := fillEventIds uuid 0 events0
  let st1 := batchInsert st events now
  let seqs := getSequencesByEventIds st1 (events.map (fun e => e.event_id.getD ""))
  { store := st1
    events := (events.zip seqs).map (fun p => { p.1 with seqField := some p.2 })
    sequences := seqs }

/-- SQL `SUM` over a nullable integer column: `NULL` when no non-null
value exists. -/
def sqlSumInt (l : List Prim) : Option Int :=
  let vals := l.filterMap Prim.asOptInt
  if vals.isEmpty then none else some (vals.foldl (fun a b => a + b) 0)

/-- SQL `AVG` over a nullable integer column. -/
def sqlAvgInt (l : List Prim) : Option ℚ :=
  let vals := l.filterMap Prim.asOptInt
  if vals.isEmpty then none
  else some ((vals.foldl (fun a b => a + b) 0 : ℚ) / vals.length)

structure SessionMetrics where
  event_count : Nat
  total_tokens : Int
  total_duration_ms : Int
  avg_duration_ms : ℚ
  total_lines_added : Int
  total_lines_removed : Int
  unique_event_types : Nat
deriving DecidableEq, Repr

/-- `SQLiteTraceStorage.calculate_session_metrics`: one aggregate query
over the indexed columns of the session's rows, with the Python-side
`or 0` defaults. -/
def calculateSessionMetrics (st : TraceStore) (sid : String) : SessionMetrics :=
  let rows := st.rows.filter (fun r => r.session_id == sid)
  { event_count := rows.length
    total_tokens := (sqlSumInt (rows.map (fun r => r.tokens_used))).getD 0
    total_duration_ms := (sqlSumInt (rows.map (fun r => r.duration_ms))).getD 0
    avg_duration_ms := (sqlAvgInt (rows.map (fun r => r.duration_ms))).getD 0
    total_lines_added := (sqlSumInt (rows.map (fun r => r.lines_added))).getD 0
    total_lines_removed := (sqlSumInt (rows.map (fun r => r.lines_removed))).getD 0
    unique_event_types := (rows.map (fun r => r.event_type)).dedup.length }

/-! ## Fast-path consumer (`fast_path/consumer.py`) -/

/-- The CDC envelope built in `FastPathConsumer._flush_batch` and read
back by the slow-path workers. -/
structure CdcEvent where
  sequence : Option Nat := none
  event_id : Option String := none
  session_id : Option String := none
  event_type : Option String := none
  platform : Option String := none
  priority : Option Nat := none
  timestamp : Option String := none
deriving DecidableEq, Repr

/-- `FastPathConsumer.calculate_priority`. -/
def calculatePriority (e : Event) : Nat :=
  let event_type := e.event_type.getD ""
  let hook_type := e.hook_type.getD ""
  if event_type == "user_prompt" || event_type == "acceptance_decision" ||
     hook_type == "UserPromptSubmit" || hook_type == "BeforeSubmitPrompt" then 1
  else if event_type == "tool_use" || event_type == "completion" ||
     hook_type == "PostToolUse" || hook_type == "AfterMCPExecution" then 2
  else if event_type == "performance" || event_type == "latency" then 3
  else if event_type == "session_start" || event_type == "session_end" ||
     hook_type == "SessionStart" || hook_type == "Stop" then 4
  else 5

/-- The CDC record `_flush_batch` publishes for one written event
(`_sequence` was attached by the writer). -/
def mkCdcEvent (e : Event) : CdcEvent :=
  { sequence := e.seqField
    event_id := e.event_id
    session_id := e.session_id
    event_type := e.event_type
    platform := e.platform
    priority := some (calculatePriority e)
    timestamp := e.timestamp }

/-- One entry read from the `telemetry:events` stream.  `parsed` is the
outcome of `json.loads(fields["data"])`: `none` models a
`json.JSONDecodeError` on a malformed entry. -/
structure StreamEntry where
  msgId : String
  parsed : Option Event
deriving DecidableEq, Repr

/-- The message loop of `FastPathConsumer.run` over one read: malformed
entries are skipped (`continue`), well-formed events are stamped with
`_ingested_at` and collected together with their message ids. -/
def collectBatch (now : String) : List StreamEntry → List Event × List String
  | [] => ([], [])
  | entry :: rest =>
    match entry.parsed with
    | none => collectBatch now rest
    | some e =>
      ({ e with ingestedAt := some now } :: (collectBatch now rest).1,
       entry.msgId :: (collectBatch now rest).2)

/-- Result of one `_flush_batch` call: the trace store, the CDC records
published, the message ids XACK'd on the input stream, and the entries
moved to the dead-letter stream (the source's DLQ branch is an
unimplemented TODO, so this list is always empty). -/
structure FlushOutcome where
  store : TraceStore
  published : List CdcEvent
  acked : List String
  dlq : List String
deriving DecidableEq, Repr

/-- `FastPathConsumer._flush_batch`.  `appendOk = false` models
`writer.write_batch` raising: the transaction is not committed and the
exception skips both the CDC publishes and the XACK (`except: don't
XACK`).  `CDCPublisher.publish` swallows its own errors, so a publish
failure cannot prevent the acknowledgement. -/
def flushBatch (appendOk : Bool) (st : TraceStore) (batch : List Event)
    (msgIds : List String) (uuid : Nat → String) (now : String) : FlushOutcome :=
  if batch.isEmpty then { store := st, published := [], acked := [], dlq := [] }
  else if appendOk then
    let wr := writeBatch st batch uuid now
    { store := wr.store
      published := wr.events.map mkCdcEvent
      acked := msgIds
      dlq := [] }
  else { store := st, published := [], acked := [], dlq := [] }

/-- One consumer iteration: parse the entries read from the stream, then
flush the resulting batch. -/
def consumeStep (appendOk : Bool) (st : TraceStore) (entries : List StreamEntry)
    (uuid : Nat → String) (now : String) : FlushOutcome :=
  flushBatch appendOk st (collectBatch now entries).1 (collectBatch now entries).2 uuid now

/-! ## Slow-path worker pool (`slow_path/worker_pool.py`, `config.py`) -/

/-- `Config.cdc_consumer_group`: the single consumer group on
`cdc:events` shared by every worker class. -/
def cdcConsumerGroup : String := "workers"

inductive WorkerClass where
  | metrics
  | conversation
deriving DecidableEq, Repr

/-- The consumer group a worker of the given class reads from:
`WorkerPoolManager` hands every worker the same `CDCWorkQueue`, which
uses `config.cdc_consumer_group`. -/
def consumerGroupFor (_w : WorkerClass) : String := cdcConsumerGroup

/-- The priority routing test of `WorkerPoolManager._run_worker`
(`priority = cdc_event.get("priority", 5)`). -/
def shouldProcess (w : WorkerClass) (cdc : CdcEvent) : Bool :=
  let priority := cdc.priority.getD 5
  match w with
  | .metrics => decide (priority ≤ 3)
  | .conversation => decide (priority ≤ 4)

/-- Within the single shared consumer group a CDC record is delivered to
exactly one worker; if that worker's class is `w`, these are the classes
that actually process the record (`_run_worker` acknowledges without work
when `shouldProcess` is false, and the XACK removes the record for the
whole group). -/
def processedClasses (w : WorkerClass) (cdc : CdcEvent) : List WorkerClass :=
  if shouldProcess w cdc then [w] else []

/-- The level computation of `WorkerPoolManager._monitor_backpressure`
applied to the observed `queue_length` (XINFO STREAM length of
`cdc:events`). -/
def backpressureLevel (queueLength : Nat) : String :=
  if queueLength > 100000 then "red"
  else if queueLength > 50000 then "orange"
  else if queueLength > 10000 then "yellow"
  else "green"

/-- Modelled from the spec's band table (for comparison in C7): green
`< 10,000`, yellow `10,000–49,999`, orange `50,000–99,999`, red
`≥ 100,000`. -/
def specBackpressureLevel (q : Nat) : String :=
  if q < 10000 then "green"
  else if q ≤ 49999 then "yellow"
  else if q ≤ 99999 then "orange"
  else "red"

/-! ## Derived conversation store (`storage/sqlite_conversations.py`) -/

structure Conversation where
  id : String
  session_id : String
  external_session_id : String
  platform : String
  workspace_hash : Prim
  started_at : String
  interaction_count : Nat
  acceptance_rate : Option ℚ
  total_tokens : Int
  total_changes : Nat
deriving DecidableEq, Repr

structure Turn where
  id : String
  conversation_id : String
  turn_number : Nat
  timestamp : String
  turn_type : String
  content_hash : Option String
  metadata : Dict
  tokens_used : Option Int
  latency_ms : Option Int
  tools_called : List String
deriving DecidableEq, Repr

structure CodeChange where
  id : String
  conversation_id : String
  turn_id : Option String
  timestamp : String
  file_extension : Option String
  operation : Prim
  lines_added : Int
  lines_removed : Int
  accepted : Option Bool
  acceptance_delay_ms : Option Int
deriving DecidableEq, Repr

/-- The three derived tables plus a counter used to draw `uuid.uuid4()`
values in the worker wrappers (uuids are modelled as `"uuid-" ++ n`). -/
structure ConvState where
  conversations : List Conversation := []
  turns : List Turn := []
  changes : List CodeChange := []
  fresh : Nat := 0
deriving DecidableEq, Repr

def emptyConvState : ConvState := {}

def uuidName (n : Nat) : String := "uuid-" ++ toString n

/-- Draw a fresh uuid from the counter. -/
def genFresh (s : ConvState) : String × ConvState :=
  (uuidName s.fresh, { s with fresh := s.fresh + 1 })

/-- `ConversationStorage.create_conversation` with the generated uuid
made explicit.  When the `UNIQUE(external_session_id, platform)`
constraint is violated the INSERT raises and nothing is committed. -/
def createConversation (s : ConvState) (id sid esid plat : String) (wh : Prim)
    (now : String) : ConvState :=
  if s.conversations.any (fun c => c.external_session_id == esid && c.platform == plat) then s
  else
    { s with conversations := s.conversations ++
        [{ id := id, session_id := sid, external_session_id := esid, platform := plat
           workspace_hash := wh, started_at := now, interaction_count := 0
           acceptance_rate := none, total_tokens := 0, total_changes := 0 }] }

/-- `ConversationStorage.get_or_create_conversation`, drawing the uuid
for a newly created conversation from the counter. -/
def getOrCreateConversation (s : ConvState) (sid esid plat : String) (wh : Prim)
    (now : String) : String × ConvState :=
  match s.conversations.find? (fun c => c.external_session_id == esid && c.platform == plat) with
  | some c => (c.id, s)
  | none =>
    ((genFresh s).1,
     createConversation (genFresh s).2 (genFresh s).1 sid esid plat wh now)

/-- `SELECT COALESCE(MAX(turn_number), 0) FROM conversation_turns WHERE
conversation_id = ?`. -/
def maxTurnNumber (s : ConvState) (cid : String) : Nat :=
  (s.turns.filter (fun t => t.conversation_id == cid)).foldl (fun m t => max m t.turn_number) 0

/-- `ConversationStorage.add_turn` with the generated turn uuid made
explicit: assign `turn_number = MAX + 1`, insert the turn, and increment
the conversation's `interaction_count`. -/
def addTurn (s : ConvState) (tid cid ttype : String) (chash : Option String)
    (md : Dict) (tok lat : Option Int) (tools : List String) (now : String) : ConvState :=
  let tn := maxTurnNumber s cid + 1
  { s with
    turns := s.turns ++
      [{ id := tid, conversation_id := cid, turn_number := tn, timestamp := now
         turn_type := ttype, content_hash := chash, metadata := md
         tokens_used := tok, latency_ms := lat, tools_called := tools }]
    conversations := s.conversations.map (fun c =>
      if c.id == cid then { c with interaction_count := c.interaction_count + 1 } else c) }

/-- `ConversationStorage.track_code_change` with the generated change
uuid made explicit: insert the change row; when `accepted` is known,
recompute `COUNT(*)` and `SUM(accepted = 1)` over all of the
conversation's changes and persist `acceptance_rate` and
`total_changes`. -/
def trackCodeChange (s : ConvState) (chid cid : String) (turnId : Option String)
    (fext : Option String) (op : Prim) (la lr : Int) (acc : Option Bool)
    (delay : Option Int) (now : String) : ConvState :=
  let s1 := { s with changes := s.changes ++
      [{ id := chid, conversation_id := cid, turn_id := turnId, timestamp := now
         file_extension := fext, operation := op, lines_added := la, lines_removed := lr
         accepted := acc, acceptance_delay_ms := delay }] }
  match acc with
  | none => s1
  | some _ =>
    let convChanges := s1.changes.filter (fun ch => ch.conversation_id == cid)
    let total := convChanges.length
    let acceptedCount := (convChanges.filter (fun ch => ch.accepted == some true)).length
    let rate : Option ℚ := if 0 < total then some ((acceptedCount : ℚ) / (total : ℚ)) else none
    { s1 with conversations := s1.conversations.map (fun c =>
        if c.id == cid then { c with acceptance_rate := rate, total_changes := total } else c) }

/-! ## Conversation worker (`slow_path/conversation_worker.py`) -/

/-- `hashlib.sha256(content).hexdigest()[:16]`, modelled as an injective
function of the content. -/
def hashContent (content : String) : String := "sha256:" ++ content

/-- `ConversationWorker._process_user_prompt`. -/
def processUserPrompt (s : ConvState) (cid : String) (e : Event) (now : String) : ConvState :=
  let contentHash := hashContent ((e.payload.pyGetD "content" (Prim.str "")).asStrD "")
  addTurn (genFresh s).2 (genFresh s).1 cid "user_prompt" (some contentHash)
    e.metadata none none [] now

/-- `ConversationWorker._process_assistant_response`. -/
def processAssistantResponse (s : ConvState) (cid : String) (e : Event) (now : String) : ConvState :=
  let tok := ((e.payload.pyGet "tokens_used").pyOr (e.metadata.pyGet "tokens_used")).asOptInt
  let lat := ((e.payload.pyGet "latency_ms").pyOr (Prim.ofOptInt e.duration_ms)).asOptInt
  let contentHash := hashContent ((e.payload.pyGetD "content" (Prim.str "")).asStrD "")
  let tools := (e.payload.pyGetD "tools_called" (Prim.strlist [])).asStrList
  addTurn (genFresh s).2 (genFresh s).1 cid "assistant_response" (some contentHash)
    e.metadata tok lat tools now

/-- `ConversationWorker._process_tool_use`.  The turn metadata
`{"tool": tool_name, **payload}` is modelled as `payload ++ [("tool", t)]`
(first-match lookup makes payload keys shadow the `"tool"` entry, as the
`**payload` expansion does). -/
def processToolUse (s : ConvState) (cid : String) (e : Event) (now : String) : ConvState :=
  let toolName := (e.payload.pyGet "tool").pyOr (Prim.ofOptStr e.tool_name)
  let tok := (e.payload.pyGet "tokens_used").asOptInt
  let lat := ((e.payload.pyGet "duration_ms").pyOr (e.payload.pyGet "latency_ms")).asOptInt
  addTurn (genFresh s).2 (genFresh s).1 cid "tool_use" none
    (e.payload ++ [("tool", toolName)]) tok lat [] now

/-- `ConversationWorker._process_code_change` (numeric defaults applied
as in `payload.get("lines_added", 0)`). -/
def processCodeChange (s : ConvState) (cid : String) (e : Event) (now : String) : ConvState :=
  let payload := e.payload
  let fext := (payload.pyGet "file_extension").asOptStr
  let op := payload.pyGetD "operation" (Prim.str "edit")
  let la := (payload.pyGetD "lines_added" (Prim.int 0)).asIntD 0
  let lr := (payload.pyGetD "lines_removed" (Prim.int 0)).asIntD 0
  let acc := (payload.pyGet "accepted").asOptBool
  let delay := (payload.pyGet "acceptance_delay_ms").asOptInt
  if la > 0 || lr > 0 || acc.isSome then
    trackCodeChange (genFresh s).2 (genFresh s).1 cid none fext op la lr acc delay now
  else s

/-- `effective_type = event_type or hook_type` (Python `or`: the empty
string falls through). -/
def effectiveTypeOf (e : Event) : String :=
  let event_type := e.event_type.getD ""
  if event_type != "" then event_type else e.hook_type.getD ""

/-- Membership test of the `user_prompt` dispatch tuple. -/
def isUserPromptType (t : String) : Bool :=
  t == "user_prompt" || t == "UserPromptSubmit" || t == "BeforeSubmitPrompt"

/-- Membership test of the `assistant_response` dispatch tuple. -/
def isAssistantRespType (t : String) : Bool :=
  t == "assistant_response" || t == "AfterAgentResponse"

/-- Membership test of the `tool_use` dispatch tuple. -/
def isToolUseType (t : String) : Bool :=
  t == "tool_use" || t == "PostToolUse" || t == "AfterMCPExecution"

/-- Membership test of the `code_change` dispatch tuple. -/
def isCodeChangeType (t : String) : Bool :=
  t == "code_change" || t == "AfterFileEdit"

/-- `external_session_id = event.get("external_session_id") or session_id`. -/
def externalSessionIdOf (e : Event) (session_id : String) : String :=
  match e.external_session_id with
  | some x => if x != "" then x else session_id
  | none => session_id

/-- `ConversationWorker.process`.  The trailing
`elif effective_type == "PostToolUse"` branch of the source is
unreachable (`PostToolUse` is already matched by the tool-use branch) and
therefore has no counterpart here. -/
def conversationProcess (cdc : CdcEvent) (ts : TraceStore) (s : ConvState)
    (now : String) : ConvState :=
  match cdc.sequence with
  | none => s
  | some seq =>
    if seq == 0 then s
    else
      match getBySequence ts seq with
      | none => s
      | some e =>
        let session_id := e.session_id.getD ""
        let platform := e.platform.getD ""
        let effectiveType := effectiveTypeOf e
        let esid := externalSessionIdOf e session_id
        let wh := e.metadata.pyGet "workspace_hash"
        let g := getOrCreateConversation s session_id esid platform wh now
        if isUserPromptType effectiveType then
          processUserPrompt g.2 g.1 e now
        else if isAssistantRespType effectiveType then
          processAssistantResponse g.2 g.1 e now
        else if isToolUseType effectiveType then
          processToolUse g.2 g.1 e now
        else if isCodeChangeType effectiveType then
          processCodeChange g.2 g.1 e now
        else g.2

/-! ## Metrics worker (`slow_path/metrics_worker.py`,
`storage/redis_metrics.py`) -/

/-- The Redis-backed metrics store: recorded samples, `INCRBY` counters
and `SET` gauges (TTLs and timestamps are not observable by any claim
and are omitted). -/
structure MetricsState where
  samples : List (String × String × ℚ) := []
  counters : List (String × Int) := []
  gauges : List (String × ℚ) := []
deriving DecidableEq, Repr

def emptyMetricsState : MetricsState := {}

def metricKey (category name : String) : String :=
  "metric:" ++ category ++ ":" ++ name

/-- `RedisMetricsStorage.record_metric`. -/
def recordMetric (ms : MetricsState) (category name : String) (v : ℚ) : MetricsState :=
  { ms with samples := ms.samples ++ [(category, name, v)] }

/-- `RedisMetricsStorage.increment_counter` (`INCRBY`). -/
def incrementCounter (ms : MetricsState) (category name : String) (amount : Int) : MetricsState :=
  let k := metricKey category name
  if ms.counters.any (fun kv => kv.1 == k) then
    { ms with counters := ms.counters.map (fun kv => if kv.1 == k then (k, kv.2 + amount) else kv) }
  else { ms with counters := ms.counters ++ [(k, amount)] }

/-- `int(self.redis.get(key) or 0)`. -/
def getCounter (ms : MetricsState) (k : String) : Int :=
  ((ms.counters.find? (fun kv => kv.1 == k)).map (fun kv => kv.2)).getD 0

/-- `RedisMetricsStorage.set_gauge` (`SET`, latest wins). -/
def setGauge (ms : MetricsState) (category name : String) (v : ℚ) : MetricsState :=
  let k := metricKey category name
  if ms.gauges.any (fun kv => kv.1 == k) then
    { ms with gauges := ms.gauges.map (fun kv => if kv.1 == k then (k, v) else kv) }
  else { ms with gauges := ms.gauges ++ [(k, v)] }

/-- `MetricsWorker._process_tool_use`. -/
def mwToolUse (ms : MetricsState) (e : Event) : MetricsState :=
  let duration := (Prim.ofOptInt e.duration_ms).pyOr (e.payload.pyGet "duration_ms")
  let toolName := (Prim.ofOptStr e.tool_name).pyOr (e.payload.pyGet "tool")
  if duration.truthy then
    let ms1 := recordMetric ms "tools" "tool_latency" ((duration.asIntD 0 : Int) : ℚ)
    let ms2 :=
      if toolName.truthy then
        recordMetric ms1 ("tools:" ++ toolName.asStrD "") "latency" ((duration.asIntD 0 : Int) : ℚ)
      else ms1
    incrementCounter ms2 "tools" "tool_use_count" 1
  else ms

/-- `MetricsWorker._process_acceptance` (`event.get("accepted") or
payload.get("accepted")`, with Python truthiness, then the
`is not None` guard). -/
def mwAcceptance (ms : MetricsState) (e : Event) : MetricsState :=
  let accepted :=
    (match e.accepted with
     | some b => Prim.boolean b
     | none => Prim.null).pyOr (e.payload.pyGet "accepted")
  if accepted == Prim.null then ms
  else
    let ms1 := incrementCounter ms "session" "total_decisions" 1
    let ms2 := if accepted.truthy then incrementCounter ms1 "session" "accepted_decisions" 1 else ms1
    let total := getCounter ms2 "metric:session:total_decisions"
    let acceptedCount := getCounter ms2 "metric:session:accepted_decisions"
    if 0 < total then
      setGauge ms2 "session" "acceptance_rate" ((acceptedCount : ℚ) / (total : ℚ))
    else ms2

/-- `MetricsWorker._process_session_start`. -/
def mwSessionStart (ms : MetricsState) : MetricsState :=
  let ms1 := incrementCounter ms "realtime" "active_sessions" 1
  recordMetric ms1 "realtime" "session_starts" 1

/-- `MetricsWorker._update_session_metrics`. -/
def mwUpdateSession (ms : MetricsState) (st : TraceStore) (sid : String) : MetricsState :=
  let m := calculateSessionMetrics st sid
  let ms1 :=
    if m.total_tokens != 0 then
      setGauge ms ("session:" ++ sid) "total_tokens" ((m.total_tokens : Int) : ℚ)
    else ms
  if m.avg_duration_ms != 0 then setGauge ms1 ("session:" ++ sid) "avg_latency_ms" m.avg_duration_ms
  else ms1

/-- `MetricsWorker.process` (dispatches on `event_type` only; the
session-level gauges are refreshed on every processed record). -/
def metricsProcess (cdc : CdcEvent) (ts : TraceStore) (ms : MetricsState) : MetricsState :=
  match cdc.sequence with
  | none => ms
  | some seq =>
    if seq == 0 then ms
    else
      match getBySequence ts seq with
      | none => ms
      | some e =>
        let event_type := e.event_type.getD ""
        let session_id := e.session_id.getD ""
        let ms1 :=
          if event_type == "tool_use" || event_type == "PostToolUse" ||
             event_type == "AfterMCPExecution" then
            mwToolUse ms e
          else if event_type == "acceptance_decision" || event_type == "code_change" then
            mwAcceptance ms e
          else if event_type == "session_start" || event_type == "SessionStart" then
            mwSessionStart ms
          else ms
        mwUpdateSession ms1 ts session_id

/-! ## Claim-support definitions -/

/-- The lookup helpers used in claim statements. -/
def acceptanceRateOf (s : ConvState) (cid : String) : Option (Option ℚ) :=
  (s.conversations.find? (fun c => c.id == cid)).map (fun c => c.acceptance_rate)

/-- Modelled from the spec (for comparison in C3): the acceptance rate
over only the conversation's changes whose `accepted` value is known. -/
def specKnownAcceptanceRate (s : ConvState) (cid : String) : Option ℚ :=
  let known := s.changes.filter (fun ch => ch.conversation_id == cid && ch.accepted.isSome)
  if known.length == 0 then none
  else
    some (((known.filter (fun ch => ch.accepted == some true)).length : ℚ) /
          (known.length : ℚ))

/-- All conversation ids referenced anywhere in the derived store (used
as the freshness domain for generated uuids). -/
def usedConvIds (s : ConvState) : List String :=
  s.conversations.map (fun c => c.id) ++ s.turns.map (fun t => t.conversation_id) ++
    s.changes.map (fun ch => ch.conversation_id)

/-- The turn numbers of a conversation, in insertion order. -/
def turnNumbersOf (s : ConvState) (cid : String) : List Nat :=
  (s.turns.filter (fun t => t.conversation_id == cid)).map (fun t => t.turn_number)

/-- The C9 invariant: every conversation's turn numbers are exactly
`[1 .. interaction_count]`. -/
def TurnDensity (s : ConvState) : Prop :=
  ∀ c ∈ s.conversations, turnNumbersOf s c.id = List.range' 1 c.interaction_count

instance (s : ConvState) : Decidable (TurnDensity s) := by
  unfold TurnDensity; infer_instance

/-- Derived-store states reachable through the `ConversationStorage`
operations, starting from the freshly created tables.  The generated
conversation uuid of `create_conversation` is modelled by the explicit
`id` with a freshness side condition (uuid4 values never collide with
any id already present). -/
inductive Reaches : ConvState → Prop
  | init : Reaches emptyConvState
  | create (s : ConvState) (id sid esid plat : String) (wh : Prim) (now : String)
      (h : Reaches s) (hfresh : id ∉ usedConvIds s) :
      Reaches (createConversation s id sid esid plat wh now)
  | add (s : ConvState) (tid cid ttype : String) (chash : Option String) (md : Dict)
      (tok lat : Option Int) (tools : List String) (now : String) (h : Reaches s) :
      Reaches (addTurn s tid cid ttype chash md tok lat tools now)
  | track (s : ConvState) (chid cid : String) (turnId : Option String)
      (fext : Option String) (op : Prim) (la lr : Int) (acc : Option Bool)
      (delay : Option Int) (now : String) (h : Reaches s) :
      Reaches (trackCodeChange s chid cid turnId fext op la lr acc delay now)

/-! Concrete sample data used by counterexamples and witnesses. -/

/-- The S1 event of the spec: a `UserPromptSubmit` from `claude_code`. -/
def evUserPrompt : Event :=
  { event_id := some "e1", session_id := some "s", external_session_id := some "s"
    platform := some "claude_code", event_type := some "UserPromptSubmit"
    timestamp := some "2025-01-01T00:00:00Z"
    payload := [("content", Prim.str "hello")] }

/-- An event with a fixed `event_id`, for duplicate-id batches. -/
def evDup : Event :=
  { event_id := some "a", session_id := some "s", event_type := some "user_prompt"
    platform := some "p", timestamp := some "t" }

/-- Trace store holding the single `evUserPrompt` row at sequence 1. -/
def upTrace : TraceStore := batchInsert emptyTraceStore [evUserPrompt] "t0"

/-- CDC record announcing that row. -/
def upCdc : CdcEvent := { sequence := some 1 }

/-- One and two applications of the conversation worker to the same CDC
record. -/
def convOnce : ConvState := conversationProcess upCdc upTrace emptyConvState "t1"

def convTwice : ConvState := conversationProcess upCdc upTrace convOnce "t2"

/-- A conversation `c1`, one change with unknown acceptance, then one
accepted change. -/
def convSetup : ConvState :=
  createConversation emptyConvState "c1" "s" "s" "p" Prim.null "t0"

def convAfterUnknown : ConvState :=
  trackCodeChange convSetup "ch1" "c1" none none (Prim.str "edit") 0 0 none none "t1"

def convAfterKnown : ConvState :=
  trackCodeChange convAfterUnknown "ch2" "c1" none none (Prim.str "edit") 5 0
    (some true) none "t2"

/-- A priority-4 CDC record (e.g. a `session_start`). -/
def cdcP4 : CdcEvent := { sequence := some 1, priority := some 4 }

/-! ## Codec round-trip theorems -/

theorem decChars_enc (cs : List Char) (rest : Bytes) :
    decChars cs.length (cs.map Char.toNat ++ rest) = some (cs, rest) := by
  induction cs with
  | nil => rfl
  | cons c cs ih => simp [decChars, ih, Char.ofNat_toNat]

theorem decString_enc (s : String) (rest : Bytes) :
    decString (encString s ++ rest) = some (s, rest) := by
  cases s with
  | mk cs => simp [encString, decString, decChars_enc]

theorem decNat_enc (n : Nat) (rest : Bytes) :
    decNat (encNat n ++ rest) = some (n, rest) := rfl

theorem decInt_enc (n : Int) (rest : Bytes) :
    decInt (encInt n ++ rest) = some (n, rest) := by
  cases n <;> rfl

theorem decBool_enc (b : Bool) (rest : Bytes) :
    decBool (encBool b ++ rest) = some (b, rest) := by
  cases b <;> rfl

theorem decOpt_encString (o : Option String) (rest : Bytes) :
    decOpt decString (encOpt encString o ++ rest) = some (o, rest) := by
  cases o <;> simp [encOpt, decOpt, decString_enc]

theorem decOpt_encInt (o : Option Int) (rest : Bytes) :
    decOpt decInt (encOpt encInt o ++ rest) = some (o, rest) := by
  cases o <;> simp [encOpt, decOpt, decInt_enc]

theorem decOpt_encBool (o : Option Bool) (rest : Bytes) :
    decOpt decBool (encOpt encBool o ++ rest) = some (o, rest) := by
  cases o <;> simp [encOpt, decOpt, decBool_enc]

theorem decOpt_encNat (o : Option Nat) (rest : Bytes) :
    decOpt decNat (encOpt encNat o ++ rest) = some (o, rest) := by
  cases o <;> simp [encOpt, decOpt, decNat_enc]

theorem decStrings_enc (l : List String) (rest : Bytes) :
    decStrings l.length (l.foldr (fun s acc => encString s ++ acc) [] ++ rest) =
      some (l, rest) := by
  induction l with
  | nil => rfl
  | cons s l ih => simp [decStrings, decString_enc, ih]

theorem decListStr_enc (l : List String) (rest : Bytes) :
    decListStr (encListStr l ++ rest) = some (l, rest) := by
  simp [encListStr, decListStr, decStrings_enc]

theorem decPrim_enc (p : Prim) (rest : Bytes) :
    decPrim (encPrim p ++ rest) = some (p, rest) := by
  cases p <;>
    simp [encPrim, decPrim, decString_enc, decInt_enc, decBool_enc, decListStr_enc]

theorem decPairs_enc (d : Dict) (rest : Bytes) :
    decPairs d.length
      (d.foldr (fun kv acc => encString kv.1 ++ (encPrim kv.2 ++ acc)) [] ++ rest) =
      some (d, rest) := by
  induction d with
  | nil => rfl
  | cons kv d ih => simp [decPairs, decString_enc, decPrim_enc, ih]

theorem decDict_enc (d : Dict) (rest : Bytes) :
    decDict (encDict d ++ rest) = some (d, rest) := by
  simp [encDict, decDict, decPairs_enc]

theorem decEventStrs_enc (a b c d f g h : Option String) (rest : Bytes) :
    decEventStrs (encOpt encString a ++ (encOpt encString b ++ (encOpt encString c ++
        (encOpt encString d ++ (encOpt encString f ++ (encOpt encString g ++
        (encOpt encString h ++ rest))))))) = some ((a, b, c, d, f, g, h), rest) := by
  simp [decEventStrs, decOpt_encString]

theorem decEventNums_enc (a b c d : Option Int) (rest : Bytes) :
    decEventNums (encOpt encInt a ++ (encOpt encInt b ++ (encOpt encInt c ++
        (encOpt encInt d ++ rest)))) = some ((a, b, c, d), rest) := by
  simp [decEventNums, decOpt_encInt]

theorem decEvent_enc (e : Event) (rest : Bytes) :
    decEvent (encodeEvent e ++ rest) = some (e, rest) := by
  cases e
  simp [encodeEvent, decEvent, decEventStrs_enc, decEventNums_enc,
        decOpt_encString, decOpt_encBool, decOpt_encNat, decDict_enc,
        List.append_assoc]

/-- The serialisation round-trip the source relies on:
`json.loads(zlib.decompress(zlib.compress(json.dumps(e)))) = e`. -/
theorem decodeEvent_encodeEvent (e : Event) : decodeEvent (encodeEvent e) = some e := by
  have h := decEvent_enc e []
  simp only [List.append_nil] at h
  simp [decodeEvent, h]

/-! ## Claim theorems -/

/-- C1.  The claim asserts that `write_batch` returns strictly increasing
sequences in input order even when two events of the batch share an
`event_id`.  The code is wrong: the query-back dict maps each `event_id`
to a single sequence (the largest, as rows are scanned in ascending
order), so a batch of two events with `event_id = "a"` on an empty store
gets sequences `[2, 2]`, which are not strictly increasing. -/
theorem c1_duplicate_ids_same_sequence :
    (writeBatch emptyTraceStore [evDup, evDup] uuidName "t0").sequences = [2, 2] ∧
    ¬ List.Pairwise (fun a b => a < b)
        (writeBatch emptyTraceStore [evDup, evDup] uuidName "t0").sequences := by
  refine ⟨by decide, by decide⟩

/-- C4.  In `_flush_batch`, a failing `write_batch` (modelled by
`appendOk = false`) acknowledges nothing and leaves the store unchanged,
and whenever anything is acknowledged the append has succeeded and the
store holds the appended batch. -/
theorem c4_ack_only_after_append (st : TraceStore) (batch : List Event)
    (msgIds : List String) (uuid : Nat → String) (now : String) :
    (flushBatch false st batch msgIds uuid now).acked = [] ∧
    (flushBatch false st batch msgIds uuid now).store = st ∧
    ∀ ok : Bool, (flushBatch ok st batch msgIds uuid now).acked ≠ [] →
      ok = true ∧
      (flushBatch ok st batch msgIds uuid now).store = (writeBatch st batch uuid now).store := by
  refine ⟨?_, ?_, ?_⟩
  · unfold flushBatch; split <;> rfl
  · unfold flushBatch; split <;> rfl
  · intro ok hok
    cases ok with
    | false =>
      exact absurd (by unfold flushBatch; split <;> rfl) hok
    | true =>
      refine ⟨rfl, ?_⟩
      by_cases hb : batch.isEmpty
      · exact absurd (by simp [flushBatch, hb]) hok
      · simp [flushBatch, hb]

/-- C4 witness: a concrete successful flush of a nonempty batch. -/
theorem c4_witness :
    true = true ∧
    (flushBatch true emptyTraceStore [evUserPrompt] ["m1"] uuidName "t0").store =
      (writeBatch emptyTraceStore [evUserPrompt] uuidName "t0").store :=
  (c4_ack_only_after_append emptyTraceStore [evUserPrompt] ["m1"] uuidName "t0").2.2
    true (by decide)

/-- C5 (counterexample).  The claim asserts a malformed entry is
acknowledged; in the code the `json.JSONDecodeError` branch just
`continue`s, so the entry's message id is never collected and never
XACK'd (it is also neither written nor dead-lettered). -/
theorem c5_malformed_entry_not_acked :
    (consumeStep true emptyTraceStore [{ msgId := "m1", parsed := none }] uuidName "t0").acked
      = [] ∧
    (consumeStep true emptyTraceStore [{ msgId := "m1", parsed := none }] uuidName "t0").store
      = emptyTraceStore ∧
    (consumeStep true emptyTraceStore [{ msgId := "m1", parsed := none }] uuidName "t0").dlq
      = [] := by
  refine ⟨rfl, rfl, rfl⟩

/-- Any id in the collected acknowledgement list comes from a
well-formed entry. -/
theorem mem_collectBatch_ids (now : String) (entries : List StreamEntry) (x : String)
    (hx : x ∈ (collectBatch now entries).2) :
    ∃ en ∈ entries, en.parsed ≠ none ∧ en.msgId = x := by
  induction entries with
  | nil => simp [collectBatch] at hx
  | cons en rest ih =>
    cases hp : en.parsed with
    | none =>
      rw [collectBatch, hp] at hx
      obtain ⟨e2, h2, h3, h4⟩ := ih hx
      exact ⟨e2, List.mem_cons_of_mem _ h2, h3, h4⟩
    | some e =>
      rw [collectBatch, hp] at hx
      rcases List.mem_cons.mp hx with h | h
      · exact ⟨en, List.mem_cons_self _ _, by simp [hp], h.symm⟩
      · obtain ⟨e2, h2, h3, h4⟩ := ih h
        exact ⟨e2, List.mem_cons_of_mem _ h2, h3, h4⟩

/-- C5 (amended).  A malformed entry is dropped without acknowledgement:
its message id is excluded from the batch acknowledgements (so it stays
in the pending-entries list), and it is neither appended nor moved to
the dead-letter stream (which the consumer never writes). -/
theorem c5_malformed_dropped_unacked (entries : List StreamEntry) (appendOk : Bool)
    (st : TraceStore) (uuid : Nat → String) (now : String) (entry : StreamEntry)
    (hmem : entry ∈ entries) (hbad : entry.parsed = none)
    (huniq : ∀ en ∈ entries, en.parsed ≠ none → en.msgId ≠ entry.msgId) :
    entry.msgId ∉ (consumeStep appendOk st entries uuid now).acked ∧
    (consumeStep appendOk st entries uuid now).dlq = [] := by
  constructor
  · intro hx
    have hids : entry.msgId ∈ (collectBatch now entries).2 := by
      by_cases hb : (collectBatch now entries).1.isEmpty
      · simp [consumeStep, flushBatch, hb] at hx
      · cases appendOk with
        | false => simp [consumeStep, flushBatch, hb] at hx
        | true => simpa [consumeStep, flushBatch, hb] using hx
    obtain ⟨en, h1, h2, h3⟩ := mem_collectBatch_ids now entries entry.msgId hids
    exact huniq en h1 h2 h3
  · by_cases hb : (collectBatch now entries).1.isEmpty
    · simp [consumeStep, flushBatch, hb]
    · cases appendOk with
      | false => simp [consumeStep, flushBatch, hb]
      | true => simp [consumeStep, flushBatch, hb]

/-- C5 witness: a malformed entry alongside a well-formed one. -/
theorem c5_witness :
    "m1" ∉ (consumeStep true emptyTraceStore
        [{ msgId := "m1", parsed := none }, { msgId := "m2", parsed := some evUserPrompt }]
        uuidName "t0").acked ∧
    (consumeStep true emptyTraceStore
        [{ msgId := "m1", parsed := none }, { msgId := "m2", parsed := some evUserPrompt }]
        uuidName "t0").dlq = [] :=
  c5_malformed_dropped_unacked _ true emptyTraceStore uuidName "t0"
    { msgId := "m1", parsed := none } (by decide) rfl (by decide)

/-- C6.  The routing predicates match the claim (`metrics` iff
`priority ≤ 3`, `conversation` iff `priority ≤ 4`, and a non-matching
worker acknowledges without work) — but all worker classes share the
single consumer group `"workers"` on `cdc:events`, so a priority-4
record delivered to a metrics worker is acknowledged unprocessed and the
conversation class never processes it: the at-least-once-per-relevant-
class part of the claim fails. -/
theorem c6_shared_group_drops_priority4 :
    consumerGroupFor WorkerClass.metrics = consumerGroupFor WorkerClass.conversation ∧
    shouldProcess WorkerClass.conversation cdcP4 = true ∧
    shouldProcess WorkerClass.metrics cdcP4 = false ∧
    processedClasses WorkerClass.metrics cdcP4 = [] ∧
    WorkerClass.conversation ∉ processedClasses WorkerClass.metrics cdcP4 := by
  refine ⟨rfl, by decide, by decide, by decide, by decide⟩

/-- C7 (counterexample).  At the boundary value 10,000 the monitor
publishes `green` (the code tests `queue_length > 10000`), while the
claim's band table assigns `yellow` to 10,000. -/
theorem c7_boundary_counterexample :
    backpressureLevel 10000 = "green" ∧ specBackpressureLevel 10000 = "yellow" ∧
    backpressureLevel 10000 ≠ specBackpressureLevel 10000 := by
  refine ⟨by decide, by decide, by decide⟩

/-- C7 (amended).  The published level is the band of the observed queue
length with the boundaries shifted by one: green iff `≤ 10,000`, yellow
iff `10,001–50,000`, orange iff `50,001–100,000`, red iff
`≥ 100,001`. -/
theorem c7_bands_amended (q : Nat) :
    (backpressureLevel q = "green" ↔ q ≤ 10000) ∧
    (backpressureLevel q = "yellow" ↔ 10000 < q ∧ q ≤ 50000) ∧
    (backpressureLevel q = "orange" ↔ 50000 < q ∧ q ≤ 100000) ∧
    (backpressureLevel q = "red" ↔ 100000 < q) := by
  unfold backpressureLevel
  split_ifs with h1 h2 h3 <;>
    refine ⟨?_, ?_, ?_, ?_⟩ <;>
    first
      | exact iff_of_true rfl (by omega)
      | exact iff_of_false (by decide) (by omega)

/-- C10.  A CDC record whose `sequence` is missing or `0` (the value the
writer attaches when the query-back finds no row) makes both workers
return before touching the trace store: the derived conversation state
and the metrics state are unchanged for every trace store. -/
theorem c10_falsy_sequence_is_noop (cdc : CdcEvent) (ts : TraceStore) (s : ConvState)
    (ms : MetricsState) (now : String)
    (h : cdc.sequence = none ∨ cdc.sequence = some 0) :
    conversationProcess cdc ts s now = s ∧ metricsProcess cdc ts ms = ms := by
  rcases h with h | h <;> simp [conversationProcess, metricsProcess, h]

/-- C10 witness: the sequence-0 record against a nonempty trace store. -/
theorem c10_witness :
    conversationProcess { sequence := some 0 } upTrace emptyConvState "t1" = emptyConvState ∧
    metricsProcess { sequence := some 0 } upTrace emptyMetricsState = emptyMetricsState :=
  c10_falsy_sequence_is_noop { sequence := some 0 } upTrace emptyConvState
    emptyMetricsState "t1" (Or.inr rfl)

/-! ## C8: round-trip of the stored event blob -/

/-- `find?` hits the `i`-th freshly inserted row. -/
theorem find?_insertRows (now : String) (evs : List Event) (seq i : Nat)
    (hi : i < evs.length) :
    (insertRows seq now evs).find? (fun r => r.sequence == seq + i) =
      some (rowOfEvent (seq + i) now (evs.get ⟨i, hi⟩)) := by
  induction evs generalizing seq i with
  | nil => simp at hi
  | cons e es ih =>
    cases i with
    | zero =>
      rw [insertRows, List.find?_cons_of_pos _ (by simp [rowOfEvent])]
      rfl
    | succ j =>
      have hj : j < es.length := Nat.lt_of_succ_lt_succ hi
      rw [insertRows, List.find?_cons_of_neg _ (by simp [rowOfEvent])]
      have h2 := ih (seq + 1) j hj
      rw [show seq + 1 + j = seq + (j + 1) from by omega] at h2
      exact h2

/-- `find?` misses every pre-existing row when looking past the
AUTOINCREMENT counter. -/
theorem find?_rows_none (st : TraceStore) (hwf : st.WF) (s : Nat)
    (hs : st.nextSeq ≤ s) :
    st.rows.find? (fun r => r.sequence == s) = none :=
  List.find?_eq_none.mpr (fun r hr => by
    have h := hwf r hr
    simp only [beq_iff_eq]
    omega)

/-- C8.  For every event persisted by `batch_insert`, `get_by_sequence`
returns exactly the appended event, with only the `_sequence` and
`_ingested_at` keys overwritten from the row's indexed columns (the
decompress-and-parse of the stored blob recovers the event itself). -/
theorem c8_roundtrip_modulo_metadata (st : TraceStore) (evs : List Event) (now : String)
    (i : Nat) (hwf : st.WF) (hi : i < evs.length) :
    getBySequence (batchInsert st evs now) (st.nextSeq + i) =
      some { evs.get ⟨i, hi⟩ with
             seqField := some (st.nextSeq + i), ingestedAt := some now } := by
  have hrows : (batchInsert st evs now).rows = st.rows ++ insertRows st.nextSeq now evs := rfl
  unfold getBySequence
  rw [hrows, List.find?_append, find?_rows_none st hwf _ (Nat.le_add_right _ _),
      Option.none_or, find?_insertRows now evs st.nextSeq i hi]
  have hdata : (rowOfEvent (st.nextSeq + i) now (evs.get ⟨i, hi⟩)).event_data =
      encodeEvent (evs.get ⟨i, hi⟩) := rfl
  simp [hdata, decodeEvent_encodeEvent, rowOfEvent]

/-- C8 witness: the S1 event round-trips through an empty store. -/
theorem c8_witness :
    getBySequence (batchInsert emptyTraceStore [evUserPrompt] "t0") 1 =
      some { evUserPrompt with seqField := some 1, ingestedAt := some "t0" } := by
  have h := c8_roundtrip_modulo_metadata emptyTraceStore [evUserPrompt] "t0" 0
    (by decide) (by decide)
  simpa using h

/-! ## C3: acceptance-rate denominator -/

/-- `find?` commutes with mapping a function that leaves the predicate
unchanged. -/
theorem find?_map_pred {α : Type} (l : List α) (f : α → α) (p : α → Bool)
    (hf : ∀ a, p (f a) = p a) :
    (l.map f).find? p = (l.find? p).map f := by
  induction l with
  | nil => rfl
  | cons a l ih =>
    by_cases h : p a = true
    · rw [List.map_cons, List.find?_cons_of_pos _ (by rw [hf]; exact h),
          List.find?_cons_of_pos _ h]
      rfl
    · rw [List.map_cons, List.find?_cons_of_neg _ (by rw [hf]; simpa using h),
          List.find?_cons_of_neg _ (by simpa using h), ih]

/-- C3 (counterexample).  One change with unknown acceptance followed by
one accepted change: the code stores `1/2` (unknown changes counted in
the denominator) where the claim requires `1/1 = 1`. -/
theorem c3_unknown_denominator_counterexample :
    acceptanceRateOf convAfterKnown "c1" = some (some ((1 : ℚ)/2)) ∧
    specKnownAcceptanceRate convAfterKnown "c1" = some 1 ∧
    ((1 : ℚ)/2) ≠ (1 : ℚ) := by
  refine ⟨?_, ?_, by norm_num⟩
  · norm_num [acceptanceRateOf, convAfterKnown, convAfterUnknown, convSetup,
      trackCodeChange, createConversation, emptyConvState]
  · norm_num [specKnownAcceptanceRate, convAfterKnown, convAfterUnknown, convSetup,
      trackCodeChange, createConversation, emptyConvState]

/-- C3 (amended).  After any `track_code_change` call with known
`accepted` on an existing conversation, the stored `acceptance_rate`
equals `accepted_true_count / total_count` where the denominator counts
ALL of the conversation's code changes — including those whose accepted
value is unknown — and `total_changes` is that same total. -/
theorem c3_rate_over_all_changes (s : ConvState) (chid cid : String)
    (turnId : Option String) (fext : Option String) (op : Prim) (la lr : Int)
    (b : Bool) (delay : Option Int) (now : String) (s2 : ConvState)
    (hc : ∃ c ∈ s.conversations, c.id = cid)
    (hs2 : s2 = trackCodeChange s chid cid turnId fext op la lr (some b) delay now) :
    ∃ c2, s2.conversations.find? (fun d => d.id == cid) = some c2 ∧
      c2.acceptance_rate = some
        ((((s2.changes.filter (fun ch => ch.conversation_id == cid)).filter
             (fun ch => ch.accepted == some true)).length : ℚ) /
         ((s2.changes.filter (fun ch => ch.conversation_id == cid)).length : ℚ)) ∧
      c2.total_changes =
        (s2.changes.filter (fun ch => ch.conversation_id == cid)).length := by
  subst hs2
  obtain ⟨c0, hc0, hcid⟩ := hc
  set ch : CodeChange :=
    { id := chid, conversation_id := cid, turn_id := turnId, timestamp := now
      file_extension := fext, operation := op, lines_added := la, lines_removed := lr
      accepted := some b, acceptance_delay_ms := delay } with hch
  set chs := s.changes ++ [ch] with hchs
  set total := (chs.filter (fun c => c.conversation_id == cid)).length with htotal
  set rate : Option ℚ :=
    if 0 < total then
      some ((((chs.filter (fun c => c.conversation_id == cid)).filter
               (fun c => c.accepted == some true)).length : ℚ) / (total : ℚ))
    else none with hrate
  set f : Conversation → Conversation := fun c =>
    if c.id == cid then { c with acceptance_rate := rate, total_changes := total } else c
    with hfdef
  have hconvs : (trackCodeChange s chid cid turnId fext op la lr (some b) delay now).conversations
      = s.conversations.map f := rfl
  have hchanges : (trackCodeChange s chid cid turnId fext op la lr (some b) delay now).changes
      = chs := rfl
  have hfind : s.conversations.find? (fun d => d.id == cid) ≠ none := by
    intro hnone
    have h := List.find?_eq_none.mp hnone c0 hc0
    simp [hcid] at h
  rcases hf : s.conversations.find? (fun d => d.id == cid) with _ | c1
  · exact absurd hf hfind
  have hc1 : (c1.id == cid) = true := by simpa using List.find?_some hf
  have hfpres : ∀ c, ((f c).id == cid) = (c.id == cid) := by
    intro c
    simp only [hfdef]
    by_cases h : (c.id == cid) = true
    · rw [if_pos h]
    · rw [if_neg h]
  have hpos : 0 < total := by
    rw [htotal, hchs, List.filter_append]
    simp [hch]
  refine ⟨f c1, ?_, ?_, ?_⟩
  · rw [hconvs, find?_map_pred _ _ _ hfpres, hf]
    rfl
  · rw [hchanges]
    rw [hfdef]
    simp only [if_pos hc1]
    rw [hrate, if_pos hpos]
  · rw [hchanges, hfdef]
    simp only [if_pos hc1]

/-- C3 witness: the accepted change of the counterexample scenario. -/
theorem c3_witness :
    ∃ c2, convAfterKnown.conversations.find? (fun d => d.id == "c1") = some c2 ∧
      c2.acceptance_rate = some
        ((((convAfterKnown.changes.filter (fun ch => ch.conversation_id == "c1")).filter
             (fun ch => ch.accepted == some true)).length : ℚ) /
         ((convAfterKnown.changes.filter (fun ch => ch.conversation_id == "c1")).length : ℚ)) ∧
      c2.total_changes =
        (convAfterKnown.changes.filter (fun ch => ch.conversation_id == "c1")).length :=
  c3_rate_over_all_changes convAfterUnknown "ch2" "c1" none none (Prim.str "edit") 5 0
    true none "t2" convAfterKnown (by decide) rfl

/-! ## C2: derivation is not idempotent on event_id -/

/-- C2 (counterexample).  Delivering the same user-prompt event twice
(same `event_id`, same trace row) yields a second turn and
`interaction_count = 2`, so the derived state after two applications
differs from the state after one. -/
theorem c2_duplicate_counterexample :
    convOnce.turns.length = 1 ∧ convTwice.turns.length = 2 ∧
    convOnce.conversations.map (fun c => c.interaction_count) = [1] ∧
    convTwice.conversations.map (fun c => c.interaction_count) = [2] ∧
    convTwice ≠ convOnce := by
  refine ⟨by decide, by decide, by decide, by decide, by decide⟩

/-- After `get_or_create_conversation`, the state holds a conversation
with the requested `(external_session_id, platform)` key. -/
theorem getOrCreate_key_found (s : ConvState) (sid esid plat : String) (wh : Prim)
    (now : String) :
    ∃ c, ((getOrCreateConversation s sid esid plat wh now).2.conversations.find?
      (fun c => c.external_session_id == esid && c.platform == plat)) = some c := by
  rcases hf : s.conversations.find?
      (fun c => c.external_session_id == esid && c.platform == plat) with _ | c
  · have hg : getOrCreateConversation s sid esid plat wh now =
        ((genFresh s).1,
         createConversation (genFresh s).2 (genFresh s).1 sid esid plat wh now) := by
      unfold getOrCreateConversation
      rw [hf]
    rw [hg]
    unfold createConversation
    rw [if_neg ?hneg]
    case hneg =>
      intro hany
      obtain ⟨c0, hc0, hp0⟩ := List.any_eq_true.mp hany
      exact List.find?_eq_none.mp hf c0 hc0 hp0
    simp only [genFresh]
    rw [List.find?_append, hf, Option.none_or]
    simp
  · have hg : getOrCreateConversation s sid esid plat wh now = (c.id, s) := by
      unfold getOrCreateConversation
      rw [hf]
    rw [hg, hf]
    exact ⟨c, rfl⟩

/-- `add_turn` rewrites the conversation list by a key-preserving map. -/
theorem addTurn_key_found (s : ConvState) (tid cid ttype : String) (chash : Option String)
    (md : Dict) (tok lat : Option Int) (tools : List String) (now esid plat : String) :
    ((addTurn s tid cid ttype chash md tok lat tools now).conversations.find?
      (fun c => c.external_session_id == esid && c.platform == plat)) =
    (s.conversations.find?
      (fun c => c.external_session_id == esid && c.platform == plat)).map
      (fun c => if c.id == cid then { c with interaction_count := c.interaction_count + 1 }
                else c) := by
  unfold addTurn
  apply find?_map_pred
  intro a
  by_cases h : (a.id == cid) = true
  · rw [if_pos h]
  · rw [if_neg h]

/-- C2 (amended).  Re-delivering a user-prompt event is idempotent at the
conversation level — the second application creates no new conversation —
but not at the turn level: it appends exactly one more turn. -/
theorem c2_second_apply_appends_turn (cdc : CdcEvent) (ts : TraceStore) (s : ConvState)
    (now1 now2 : String) (seq : Nat) (e : Event) (s1 s2 : ConvState)
    (hseq : cdc.sequence = some seq) (hnz : (seq == 0) = false)
    (hev : getBySequence ts seq = some e)
    (hup : isUserPromptType (effectiveTypeOf e) = true)
    (hs1 : s1 = conversationProcess cdc ts s now1)
    (hs2 : s2 = conversationProcess cdc ts s1 now2) :
    s2.conversations.length = s1.conversations.length ∧
    s2.turns.length = s1.turns.length + 1 := by
  have hred : ∀ (s0 : ConvState) (now : String),
      conversationProcess cdc ts s0 now =
        processUserPrompt
          (getOrCreateConversation s0 (e.session_id.getD "")
            (externalSessionIdOf e (e.session_id.getD "")) (e.platform.getD "")
            (e.metadata.pyGet "workspace_hash") now).2
          (getOrCreateConversation s0 (e.session_id.getD "")
            (externalSessionIdOf e (e.session_id.getD "")) (e.platform.getD "")
            (e.metadata.pyGet "workspace_hash") now).1 e now := by
    intro s0 now
    simp only [conversationProcess, hseq, hnz, hev, hup, Bool.false_eq_true, if_false,
      if_true, ite_true, ite_false]
  set sid := e.session_id.getD "" with hsid
  set esid := externalSessionIdOf e sid with hesid
  set plat := e.platform.getD "" with hplat
  set wh := e.metadata.pyGet "workspace_hash" with hwh
  obtain ⟨c, hc⟩ := getOrCreate_key_found s sid esid plat wh now1
  have hfind1 : s1.conversations.find?
      (fun c => c.external_session_id == esid && c.platform == plat) =
      some (if c.id == (getOrCreateConversation s sid esid plat wh now1).1 then
              { c with interaction_count := c.interaction_count + 1 } else c) := by
    rw [hs1, hred s now1]
    unfold processUserPrompt
    rw [addTurn_key_found]
    have hgc : ((genFresh (getOrCreateConversation s sid esid plat wh now1).2).2).conversations
        = (getOrCreateConversation s sid esid plat wh now1).2.conversations := rfl
    rw [hgc, hc]
    rfl
  have hg2 : getOrCreateConversation s1 sid esid plat wh now2 =
      ((if c.id == (getOrCreateConversation s sid esid plat wh now1).1 then
          { c with interaction_count := c.interaction_count + 1 } else c).id, s1) := by
    conv_lhs => unfold getOrCreateConversation
    rw [hfind1]
  rw [hs2, hred s1 now2]
  unfold processUserPrompt
  rw [hg2]
  unfold addTurn
  constructor
  · exact List.length_map _ _
  · simp [genFresh]

/-- C2 witness: the concrete duplicate-delivery scenario. -/
theorem c2_witness :
    convTwice.conversations.length = convOnce.conversations.length ∧
    convTwice.turns.length = convOnce.turns.length + 1 :=
  c2_second_apply_appends_turn upCdc upTrace emptyConvState "t1" "t2" 1
    { evUserPrompt with seqField := some 1, ingestedAt := some "t0" }
    convOnce convTwice rfl (by decide) (by decide) (by decide) rfl rfl

/-! ## C9: turn density -/

theorem foldl_max_range' (n : Nat) :
    (List.range' 1 n).foldl (fun m t => max m t) 0 = n := by
  induction n with
  | zero => rfl
  | succ k ih =>
    rw [List.range'_concat, List.foldl_append, ih]
    show max k (1 + 1 * k) = k + 1
    omega

/-- When a conversation's turn numbers are `[1..n]`, the `MAX` query
returns `n`. -/
theorem maxTurnNumber_of_density (s : ConvState) (cid : String) (n : Nat)
    (h : turnNumbersOf s cid = List.range' 1 n) :
    maxTurnNumber s cid = n := by
  unfold maxTurnNumber
  have hfm := List.foldl_map (fun t : Turn => t.turn_number) (fun m t => max m t)
    (s.turns.filter (fun t => t.conversation_id == cid)) 0
  rw [← hfm]
  have hmap : (s.turns.filter (fun t => t.conversation_id == cid)).map
      (fun t => t.turn_number) = List.range' 1 n := h
  rw [hmap, foldl_max_range']

/-- Turn density holds in every reachable derived-store state. -/
theorem turnDensity_of_reaches (s : ConvState) (h : Reaches s) : TurnDensity s := by
  induction h with
  | init =>
    intro c hc
    simp [emptyConvState] at hc
  | create s id sid esid plat wh now h hfresh ih =>
    unfold createConversation
    by_cases hdup : s.conversations.any
        (fun c => c.external_session_id == esid && c.platform == plat) = true
    · rw [if_pos hdup]; exact ih
    · rw [if_neg hdup]
      intro c hc
      rcases List.mem_append.mp hc with hmem | hnew
      · exact ih c hmem
      · have hc' : c = { id := id, session_id := sid, external_session_id := esid
                         platform := plat, workspace_hash := wh, started_at := now
                         interaction_count := 0, acceptance_rate := none
                         total_tokens := 0, total_changes := 0 } := by
          simpa using hnew
        subst hc'
        show turnNumbersOf s id = List.range' 1 0
        unfold turnNumbersOf
        have hnone : s.turns.filter (fun t => t.conversation_id == id) = [] := by
          rw [List.filter_eq_nil_iff]
          intro t ht hbeq
          apply hfresh
          unfold usedConvIds
          refine List.mem_append.mpr (Or.inl (List.mem_append.mpr (Or.inr ?_)))
          have hteq : t.conversation_id = id := by simpa using hbeq
          exact hteq ▸ List.mem_map_of_mem _ ht
        rw [hnone]
        rfl
  | add s tid cid ttype chash md tok lat tools now h ih =>
    intro c hc
    rw [show (addTurn s tid cid ttype chash md tok lat tools now).conversations =
        s.conversations.map (fun c => if c.id == cid then
          { c with interaction_count := c.interaction_count + 1 } else c) from rfl] at hc
    obtain ⟨c0, hc0, hfc⟩ := List.mem_map.mp hc
    by_cases hid : (c0.id == cid) = true
    · rw [if_pos hid] at hfc
      subst hfc
      have hcid : c0.id = cid := by simpa using hid
      have hn := ih c0 hc0
      have hmax := maxTurnNumber_of_density s c0.id c0.interaction_count hn
      show turnNumbersOf (addTurn s tid cid ttype chash md tok lat tools now) c0.id
        = List.range' 1 (c0.interaction_count + 1)
      unfold turnNumbersOf addTurn
      simp only
      rw [List.filter_append, List.map_append]
      have hsingle : (List.filter (fun t => t.conversation_id == c0.id)
          ([{ id := tid, conversation_id := cid
              turn_number := maxTurnNumber s cid + 1, timestamp := now
              turn_type := ttype, content_hash := chash, metadata := md
              tokens_used := tok, latency_ms := lat, tools_called := tools }] : List Turn)).map
            (fun t => t.turn_number) = [maxTurnNumber s cid + 1] := by
        rw [List.filter_cons]
        simp [hcid]
      rw [hsingle]
      have hold : (List.filter (fun t => t.conversation_id == c0.id) s.turns).map
          (fun t => t.turn_number) = List.range' 1 c0.interaction_count := hn
      rw [hold, ← hcid, hmax, List.range'_concat]
      congr 1
      simp
      omega
    · rw [if_neg hid] at hfc
      subst hfc
      have hne : cid ≠ c0.id := by
        intro hx
        apply hid
        simp [hx]
      show turnNumbersOf (addTurn s tid cid ttype chash md tok lat tools now) c0.id
        = List.range' 1 c0.interaction_count
      unfold turnNumbersOf addTurn
      simp only
      rw [List.filter_append, List.map_append]
      have hsingle : (List.filter (fun t => t.conversation_id == c0.id)
          ([{ id := tid, conversation_id := cid
              turn_number := maxTurnNumber s cid + 1, timestamp := now
              turn_type := ttype, content_hash := chash, metadata := md
              tokens_used := tok, latency_ms := lat, tools_called := tools }] : List Turn)).map
            (fun t => t.turn_number) = ([] : List Nat) := by
        rw [List.filter_cons]
        simp [hne]
      rw [hsingle, List.append_nil]
      exact ih c0 hc0
  | track s chid cid turnId fext op la lr acc delay now h ih =>
    intro c hc
    cases acc with
    | none =>
      exact ih c hc
    | some b =>
      obtain ⟨c0, hc0, hfc⟩ := List.mem_map.mp hc
      have hid : c.id = c0.id ∧ c.interaction_count = c0.interaction_count := by
        by_cases hb : (c0.id == cid) = true
        · rw [if_pos hb] at hfc; exact ⟨hfc ▸ rfl, hfc ▸ rfl⟩
        · rw [if_neg hb] at hfc; exact ⟨hfc ▸ rfl, hfc ▸ rfl⟩
      have hd := ih c0 hc0
      rw [hid.1, hid.2]
      exact hd

/-- C9.  (a) In every reachable derived-store state, each conversation's
turn numbers are exactly the contiguous range `[1..interaction_count]`;
(b) `add_turn` appends a turn numbered `MAX + 1` and bumps only the
matching conversation's `interaction_count` by one; (c/d)
`create_conversation` and `track_code_change` leave all turns and all
interaction counts unchanged. -/
theorem c9_turn_density :
    (∀ s, Reaches s → TurnDensity s) ∧
    (∀ (s : ConvState) (tid cid ttype : String) (chash : Option String) (md : Dict)
       (tok lat : Option Int) (tools : List String) (now : String),
       (addTurn s tid cid ttype chash md tok lat tools now).turns =
         s.turns ++ [{ id := tid, conversation_id := cid
                       turn_number := maxTurnNumber s cid + 1, timestamp := now
                       turn_type := ttype, content_hash := chash, metadata := md
                       tokens_used := tok, latency_ms := lat, tools_called := tools }] ∧
       (addTurn s tid cid ttype chash md tok lat tools now).conversations =
         s.conversations.map (fun c => if c.id == cid then
           { c with interaction_count := c.interaction_count + 1 } else c)) ∧
    (∀ (s : ConvState) (id sid esid plat : String) (wh : Prim) (now : String),
       (createConversation s id sid esid plat wh now).turns = s.turns ∧
       ∀ c ∈ s.conversations, c ∈ (createConversation s id sid esid plat wh now).conversations) ∧
    (∀ (s : ConvState) (chid cid : String) (turnId : Option String) (fext : Option String)
       (op : Prim) (la lr : Int) (acc : Option Bool) (delay : Option Int) (now : String),
       (trackCodeChange s chid cid turnId fext op la lr acc delay now).turns = s.turns ∧
       (trackCodeChange s chid cid turnId fext op la lr acc delay now).conversations.map
           (fun c => c.interaction_count) =
         s.conversations.map (fun c => c.interaction_count)) := by
  refine ⟨turnDensity_of_reaches, ?_, ?_, ?_⟩
  · intro s tid cid ttype chash md tok lat tools now
    exact ⟨rfl, rfl⟩
  · intro s id sid esid plat wh now
    constructor
    · unfold createConversation
      split <;> rfl
    · intro c hc
      unfold createConversation
      split
      · exact hc
      · exact List.mem_append.mpr (Or.inl hc)
  · intro s chid cid turnId fext op la lr acc delay now
    cases acc with
    | none => exact ⟨rfl, rfl⟩
    | some b =>
      refine ⟨rfl, ?_⟩
      have hconvs : (trackCodeChange s chid cid turnId fext op la lr (some b) delay now).conversations
          = s.conversations.map (fun c =>
              if c.id == cid then
                { c with
                  acceptance_rate :=
                    if 0 < ((s.changes ++
                        ([{ id := chid, conversation_id := cid, turn_id := turnId
                            timestamp := now, file_extension := fext, operation := op
                            lines_added := la, lines_removed := lr, accepted := some b
                            acceptance_delay_ms := delay }] : List CodeChange)).filter
                          (fun ch => ch.conversation_id == cid)).length then
                      some (((((s.changes ++
                          ([{ id := chid, conversation_id := cid, turn_id := turnId
                              timestamp := now, file_extension := fext, operation := op
                              lines_added := la, lines_removed := lr, accepted := some b
                              acceptance_delay_ms := delay }] : List CodeChange)).filter
                            (fun ch => ch.conversation_id == cid)).filter
                            (fun ch => ch.accepted == some true)).length : ℚ) /
                        (((s.changes ++
                          ([{ id := chid, conversation_id := cid, turn_id := turnId
                              timestamp := now, file_extension := fext, operation := op
                              lines_added := la, lines_removed := lr, accepted := some b
                              acceptance_delay_ms := delay }] : List CodeChange)).filter
                            (fun ch => ch.conversation_id == cid)).length : ℚ))
                    else none
                  total_changes :=
                    ((s.changes ++
                        ([{ id := chid, conversation_id := cid, turn_id := turnId
                            timestamp := now, file_extension := fext, operation := op
                            lines_added := la, lines_removed := lr, accepted := some b
                            acceptance_delay_ms := delay }] : List CodeChange)).filter
                          (fun ch => ch.conversation_id == cid)).length }
              else c) := rfl
      rw [hconvs, List.map_map]
      apply List.map_congr_left
      intro c _
      by_cases h : (c.id == cid) = true
      · simp only [Function.comp_apply, if_pos h]
      · simp only [Function.comp_apply, if_neg h]

/-- C9 witness: a reachable two-operation state. -/
theorem c9_witness :
    TurnDensity (addTurn (createConversation emptyConvState "c1" "s" "s" "p" Prim.null "t0")
      "tid1" "c1" "user_prompt" none [] none none [] "t1") ∧
    turnNumbersOf (addTurn (createConversation emptyConvState "c1" "s" "s" "p" Prim.null "t0")
      "tid1" "c1" "user_prompt" none [] none none [] "t1") "c1" = [1] :=
  ⟨c9_turn_density.1 _
    (Reaches.add _ "tid1" "c1" "user_prompt" none [] none none [] "t1"
      (Reaches.create emptyConvState "c1" "s" "s" "p" Prim.null "t0" Reaches.init
        (by decide))),
   by decide⟩

end Blueplane
